import Mathlib

/-!
Verification of the latent permutation-invariant training engine of
`train_thesis_model.py` / `separator_rwkv6.py` (thesis1 repository).

Tensors are embedded as flat lists of rationals (exact arithmetic stands in
for floating point); the training loop's step controller, best-metric
tracker, startup phase, parameter freezing and separator forward pass are
embedded from `src/train_thesis_model.py` and `src/separator_rwkv6.py`.
The matching loss (`losses/pit_latent_mse.py`) and learning-rate schedule
(`utils/lr_sched.py`) are imported by the training script but their files
are not in the source tree; those two are modelled from the spec.
-/

/-- A latent tensor, flattened to its elementwise values. -/
abbrev Latent := List ℚ

/-- Modelled from the spec: elementwise mean-squared error between two
latent tensors of identical shape (part of the missing
`losses/pit_latent_mse.py`). -/
def mse (a b : Latent) : ℚ :=
  (List.zipWith (fun x y => (x - y) ^ 2) a b).sum / a.length

/-- Modelled from the spec: `pit_mse` from the missing
`losses/pit_latent_mse.py`, at the 2-speaker instance used by the training
script. Inputs are the two predicted latents and the two target latents;
the two candidate assignments are the identity pairing and the swap
pairing, and the loss is the minimum of the two summed pairwise errors.
The returned flag is the chosen assignment (`false` = identity,
`true` = swap). -/
def pit_mse (p1 p2 t1 t2 : Latent) : ℚ × Bool :=
  let costId := mse p1 t1 + mse p2 t2
  let costSw := mse p1 t2 + mse p2 t1
  if costSw < costId then (costSw, true) else (costId, false)

/-- Best-metric tracking step extracted from `main`
(`src/train_thesis_model.py`, `if sisdr > best_sisdr:` block): returns the
new best metric and whether the best slot was written. -/
def trackerStep (best metric : ℚ) : ℚ × Bool :=
  if metric > best then (metric, true) else (best, false)

/-- Initial best metric in `main` (`best_sisdr = -1e9`). -/
def initBest : ℚ := -1000000000

/-- Runs the tracker over a sequence of per-epoch validation metrics,
recording for each call whether the best slot was written. -/
def trackerWrites (metrics : List ℚ) : List Bool :=
  (metrics.foldl
    (fun (acc : ℚ × List Bool) m =>
      let s := trackerStep acc.1 m
      (s.1, acc.2 ++ [s.2]))
    (initBest, [])).2

/-- The loss component of `pit_mse` is the minimum of the two candidate
assignment costs. -/
theorem pit_mse_fst (p1 p2 t1 t2 : Latent) :
    (pit_mse p1 p2 t1 t2).1 = min (mse p1 t1 + mse p2 t2) (mse p1 t2 + mse p2 t1) := by
  unfold pit_mse
  dsimp only
  split_ifs with h
  · exact (min_eq_right h.le).symm
  · exact (min_eq_left (not_lt.mp h)).symm

/-- C3: for every valid 2-speaker predicted/target pair (identical tensor
shapes), the matching loss is at most the identity-pairing cost, at most
the swap-pairing cost, and equals the minimum of the two. -/
theorem pit_mse_min_of_two (p1 p2 t1 t2 : Latent)
    (h1 : p1.length = t1.length) (h2 : p2.length = t2.length)
    (h12 : p1.length = p2.length) :
    (pit_mse p1 p2 t1 t2).1 ≤ mse p1 t1 + mse p2 t2 ∧
    (pit_mse p1 p2 t1 t2).1 ≤ mse p1 t2 + mse p2 t1 ∧
    (pit_mse p1 p2 t1 t2).1 = min (mse p1 t1 + mse p2 t2) (mse p1 t2 + mse p2 t1) := by
  refine ⟨?_, ?_, pit_mse_fst p1 p2 t1 t2⟩ <;> rw [pit_mse_fst]
  · exact min_le_left _ _
  · exact min_le_right _ _

/-- Witness for C3 at a concrete 2-speaker pair. -/
theorem pit_mse_min_of_two_witness :
    (pit_mse [1, 2] [3, 4] [1, 0] [0, 4]).1 ≤ mse [1, 2] [1, 0] + mse [3, 4] [0, 4] ∧
    (pit_mse [1, 2] [3, 4] [1, 0] [0, 4]).1 ≤ mse [1, 2] [0, 4] + mse [3, 4] [1, 0] ∧
    (pit_mse [1, 2] [3, 4] [1, 0] [0, 4]).1 =
      min (mse [1, 2] [1, 0] + mse [3, 4] [0, 4]) (mse [1, 2] [0, 4] + mse [3, 4] [1, 0]) :=
  pit_mse_min_of_two [1, 2] [3, 4] [1, 0] [0, 4] rfl rfl rfl

/-- C4: permuting the order of the target speaker set leaves the loss value
returned by the matching loss unchanged. -/
theorem pit_mse_target_perm_invariant (p1 p2 t1 t2 : Latent) :
    (pit_mse p1 p2 t2 t1).1 = (pit_mse p1 p2 t1 t2).1 := by
  rw [pit_mse_fst, pit_mse_fst, min_comm]

/-- C5: the tracker writes the best slot iff the new metric strictly exceeds
the best metric seen so far, and feeding metrics [1, 1, 2, 1/2] produces
best-slot writes after exactly the 1st and 3rd calls. -/
theorem tracker_strict_improvement :
    (∀ best metric : ℚ, (trackerStep best metric).2 = true ↔ best < metric) ∧
    trackerWrites [1, 1, 2, 1 / 2] = [true, false, true, false] := by
  constructor
  · intro best metric
    unfold trackerStep
    split_ifs with h
    · simpa using h
    · simpa using h
  · norm_num [trackerWrites, trackerStep, initBest, List.foldl]

/-- State of the gradient-accumulation step controller in `main`
(`src/train_thesis_model.py`, training loop). `pendingGrad` stands for the
gradient buffer as the sum of the scaled losses whose backward passes have
accumulated into it since the last `opt.zero_grad()`; `backwards` records
each scaled loss sent to backward; `applied` records the accumulated
gradient at each optimizer step; `logged` records the values written to the
`train/loss` metric. The loop is embedded with `amp` disabled, where the
gradient scaler is the identity passthrough. -/
structure AccumState where
  optSteps : ℕ
  schedSteps : ℕ
  pendingGrad : ℚ
  backwards : List ℚ
  applied : List ℚ
  logged : List ℚ
deriving DecidableEq

/-- The fresh state at the start of `main`'s training loop. -/
def AccumState.init : AccumState :=
  { optSteps := 0, schedSteps := 0, pendingGrad := 0
    backwards := [], applied := [], logged := [] }

/-- One micro-batch of `main`'s training loop (batch index `b` within the
epoch, micro-batch loss `loss`): the loss is scaled by `1/grad_accum`,
backward accumulates it into the gradient buffer, and when
`(b+1) % grad_accum == 0` the controller steps the optimizer, zeroes the
gradients, advances the scheduler and logs `loss.item() * grad_accum`. -/
def microBatch (ga : ℕ) (st : AccumState) (b : ℕ) (loss : ℚ) : AccumState :=
  let scaled := loss / (ga : ℚ)
  let st' := { st with pendingGrad := st.pendingGrad + scaled
                       backwards := st.backwards ++ [scaled] }
  if (b + 1) % ga = 0 then
    { st' with optSteps := st'.optSteps + 1
               schedSteps := st'.schedSteps + 1
               pendingGrad := 0
               applied := st'.applied ++ [st'.pendingGrad]
               logged := st'.logged ++ [scaled * (ga : ℚ)] }
  else st'

/-- Runs the rest of an epoch from batch index `b0` onward. -/
def runFrom (ga : ℕ) (st : AccumState) (b0 : ℕ) : List ℚ → AccumState
  | [] => st
  | loss :: rest => runFrom ga (microBatch ga st b0 loss) (b0 + 1) rest

/-- One epoch of `main`'s training loop: `enumerate(train_loader)` restarts
the batch index at 0 each epoch. -/
def runEpoch (ga : ℕ) (st : AccumState) (losses : List ℚ) : AccumState :=
  runFrom ga st 0 losses

/-- The whole training loop over a list of epochs, each a list of
micro-batch losses. Gradient buffers (`pendingGrad`) persist across epoch
boundaries because `opt.zero_grad()` runs only on optimizer steps. -/
def runEpochs (ga : ℕ) (st : AccumState) (epochs : List (List ℚ)) : AccumState :=
  epochs.foldl (runEpoch ga) st

/-- Number of optimizer/scheduler steps triggered while processing `n`
micro-batches starting at batch index `b0`. -/
def stepsIn (ga : ℕ) : ℕ → ℕ → ℕ
  | _, 0 => 0
  | b0, n + 1 => (if (b0 + 1) % ga = 0 then 1 else 0) + stepsIn ga (b0 + 1) n

/-- `microBatch` advances the scheduler exactly when `(b+1) % ga = 0`. -/
theorem microBatch_schedSteps (ga : ℕ) (st : AccumState) (b : ℕ) (loss : ℚ) :
    (microBatch ga st b loss).schedSteps =
      st.schedSteps + (if (b + 1) % ga = 0 then 1 else 0) := by
  unfold microBatch
  dsimp only
  split_ifs <;> simp

/-- The scheduler advances of a run from index `b0` are counted by
`stepsIn`. -/
theorem runFrom_schedSteps (ga : ℕ) (losses : List ℚ) :
    ∀ (st : AccumState) (b0 : ℕ),
      (runFrom ga st b0 losses).schedSteps = st.schedSteps + stepsIn ga b0 losses.length := by
  induction losses with
  | nil => intro st b0; simp [runFrom, stepsIn]
  | cons loss rest ih =>
    intro st b0
    rw [runFrom, ih, microBatch_schedSteps]
    simp only [stepsIn, List.length_cons]
    split_ifs <;> omega

/-- Counting the indices `j` in `[b0, b0+n)` with `ga ∣ j+1` equals the
difference of the prefix counts. -/
theorem stepsIn_add_div (ga : ℕ) :
    ∀ (n b0 : ℕ), stepsIn ga b0 n + b0 / ga = (b0 + n) / ga := by
  intro n
  induction n with
  | zero => intro b0; simp [stepsIn]
  | succ n ih =>
    intro b0
    have h1 : stepsIn ga b0 (n + 1) =
        (if ga ∣ b0 + 1 then 1 else 0) + stepsIn ga (b0 + 1) n := by
      rw [stepsIn]
      congr 1
      simp [Nat.dvd_iff_mod_eq_zero]
    have h2 := ih (b0 + 1)
    have h3 : (b0 + 1) / ga = b0 / ga + if ga ∣ b0 + 1 then 1 else 0 :=
      Nat.succ_div b0 ga
    have h4 : b0 + (n + 1) = b0 + 1 + n := by omega
    rw [h1, h4, ← h2, h3]
    omega

/-- Scheduler advances in one epoch of `n` micro-batches number `n / ga`. -/
theorem runEpoch_schedSteps (ga : ℕ) (st : AccumState) (losses : List ℚ) :
    (runEpoch ga st losses).schedSteps = st.schedSteps + losses.length / ga := by
  have h := stepsIn_add_div ga losses.length 0
  simp only [Nat.zero_div, Nat.add_zero, Nat.zero_add] at h
  rw [runEpoch, runFrom_schedSteps, h]

/-- Scheduler advances over a list of epochs sum the per-epoch counts. -/
theorem runEpochs_schedSteps (ga : ℕ) (eps : List (List ℚ)) :
    ∀ st : AccumState,
      (runEpochs ga st eps).schedSteps =
        st.schedSteps + (eps.map (fun e => e.length / ga)).sum := by
  induction eps with
  | nil => intro st; simp [runEpochs]
  | cons e rest ih =>
    intro st
    have : runEpochs ga st (e :: rest) = runEpochs ga (runEpoch ga st e) rest := rfl
    rw [this, ih, runEpoch_schedSteps]
    simp [Nat.add_assoc]

/-- C2 counterexample: with grad_accum = 2, feeding 2 * 2 = 4 micro-batches
split across an epoch of 3 and an epoch of 1 triggers only 1 scheduler
advance, not 2, because the batch index resets at the epoch boundary. -/
theorem grad_accum_epoch_boundary_counterexample :
    (([[(0 : ℚ), 0, 0], [0]].map List.length).sum = 2 * 2) ∧
    (runEpochs 2 AccumState.init [[(0 : ℚ), 0, 0], [0]]).schedSteps = 1 ∧
    (runEpochs 2 AccumState.init [[(0 : ℚ), 0, 0], [0]]).schedSteps ≠ 2 := by
  refine ⟨by simp, ?_, ?_⟩ <;>
    · rw [runEpochs_schedSteps]
      simp [AccumState.init]

/-- C2 amended: within a single epoch the claim holds — an epoch of
grad_accum * k micro-batches triggers exactly k scheduler advances — and in
general a run of several epochs triggers floor(len_i / grad_accum) advances
per epoch, so leftover micro-batches of an epoch whose length is not
divisible by grad_accum never trigger an advance. -/
theorem grad_accum_sched_advances (ga k : ℕ) (st : AccumState)
    (losses : List ℚ) (eps : List (List ℚ))
    (hga : 1 ≤ ga) (hlen : losses.length = ga * k) :
    (runEpoch ga st losses).schedSteps = st.schedSteps + k ∧
    (runEpochs ga st eps).schedSteps =
      st.schedSteps + (eps.map (fun e => e.length / ga)).sum := by
  refine ⟨?_, runEpochs_schedSteps ga eps st⟩
  rw [runEpoch_schedSteps, hlen, Nat.mul_div_cancel_left k hga]

/-- Witness for C2 amended, at grad_accum = 2, one epoch of two zero
losses. -/
theorem grad_accum_sched_advances_witness :
    (runEpoch 2 AccumState.init [(0 : ℚ), 0]).schedSteps = AccumState.init.schedSteps + 1 ∧
    (runEpochs 2 AccumState.init []).schedSteps =
      AccumState.init.schedSteps + (([] : List (List ℚ)).map (fun e => e.length / 2)).sum :=
  grad_accum_sched_advances 2 1 AccumState.init [(0 : ℚ), 0] [] (by decide) rfl

/-- C1 counterexample: in the accumulation example (grad_accum = 2,
micro-batch losses 0.4 and 0.6) the value logged to train/loss is 0.6 — the
final micro-batch's unscaled loss — not the average 0.5 stated by the
claim. -/
theorem train_loss_log_counterexample :
    (runEpoch 2 AccumState.init [2 / 5, 3 / 5]).logged = [3 / 5] ∧
    ((3 : ℚ) / 5) ≠ 1 / 2 := by
  constructor
  · norm_num [runEpoch, runFrom, microBatch, AccumState.init]
  · norm_num

/-- C1 amended: with grad_accum = 2 and micro-batch losses 0.4 and 0.6,
each loss is scaled by 1/2 before backward (backward passes see 0.2 and
0.3), exactly one optimizer step results and its accumulated gradient
corresponds to the average loss 0.5, but train/loss logs 0.6 (the last
micro-batch's loss, unscaled back), not the average 0.5. -/
theorem accumulation_example_run :
    (runEpoch 2 AccumState.init [2 / 5, 3 / 5]).backwards = [1 / 5, 3 / 10] ∧
    (runEpoch 2 AccumState.init [2 / 5, 3 / 5]).optSteps = 1 ∧
    (runEpoch 2 AccumState.init [2 / 5, 3 / 5]).applied = [1 / 2] ∧
    (runEpoch 2 AccumState.init [2 / 5, 3 / 5]).logged = [3 / 5] := by
  refine ⟨?_, ?_, ?_, ?_⟩ <;> norm_num [runEpoch, runFrom, microBatch, AccumState.init]

/-- Modelled from the spec: the linear-warmup branch of the `CosineWarmup`
schedule (`utils/lr_sched.py`, imported by the training script but not in
the source tree): `lr = max_lr * step / warmup_steps`. -/
noncomputable def CosineWarmup.ramp (warmup : ℕ) (max_lr : ℝ) (s : ℕ) : ℝ :=
  max_lr * s / warmup

/-- Modelled from the spec: the cosine-decay branch of the `CosineWarmup`
schedule: `lr = min_lr + 0.5*(max_lr-min_lr)*(1+cos(pi*(step-warmup)/(max_steps-warmup)))`. -/
noncomputable def CosineWarmup.decay (warmup max_steps : ℕ) (max_lr min_lr : ℝ) (s : ℕ) : ℝ :=
  min_lr + 0.5 * (max_lr - min_lr) *
    (1 + Real.cos (Real.pi * ((s : ℝ) - (warmup : ℝ)) / ((max_steps : ℝ) - (warmup : ℝ))))

/-- Modelled from the spec: the `CosineWarmup` learning rate as a pure
function of the global step: linear warmup below `warmup`, cosine decay up
to `max_steps`, clamped to `min_lr` afterwards. -/
noncomputable def CosineWarmup.lr (warmup max_steps : ℕ) (max_lr min_lr : ℝ) (s : ℕ) : ℝ :=
  if s < warmup then CosineWarmup.ramp warmup max_lr s
  else if s < max_steps then CosineWarmup.decay warmup max_steps max_lr min_lr s
  else min_lr

/-- C6: with warmup=100, max_lr=1e-3, min_lr=1e-5, max_steps=1000, the
schedule satisfies lr(0)=0, lr(100)=1e-3, lr(1000)=1e-5 and lr(2000)=1e-5
(clamped). -/
theorem cosine_warmup_examples :
    CosineWarmup.lr 100 1000 (1e-3) (1e-5) 0 = 0 ∧
    CosineWarmup.lr 100 1000 (1e-3) (1e-5) 100 = 1e-3 ∧
    CosineWarmup.lr 100 1000 (1e-3) (1e-5) 1000 = 1e-5 ∧
    CosineWarmup.lr 100 1000 (1e-3) (1e-5) 2000 = 1e-5 := by
  refine ⟨?_, ?_, ?_, ?_⟩
  · norm_num [CosineWarmup.lr, CosineWarmup.ramp]
  · have h0 : Real.pi * (((100 : ℕ) : ℝ) - ((100 : ℕ) : ℝ)) / (((1000 : ℕ) : ℝ) - ((100 : ℕ) : ℝ)) = 0 := by
      rw [sub_self, mul_zero, zero_div]
    norm_num [CosineWarmup.lr, CosineWarmup.decay, h0, Real.cos_zero]
  · norm_num [CosineWarmup.lr]
  · norm_num [CosineWarmup.lr]

/-- The cosine-decay branch stays at or above `min_lr`. -/
theorem cosine_decay_ge_min (w M : ℕ) (mx mn : ℝ) (hmn : mn ≤ mx) (s : ℕ) :
    mn ≤ CosineWarmup.decay w M mx mn s := by
  unfold CosineWarmup.decay
  have hc : (0 : ℝ) ≤ 0.5 * (mx - mn) :=
    mul_nonneg (by norm_num) (sub_nonneg.mpr hmn)
  have hcos : (0 : ℝ) ≤ 1 + Real.cos (Real.pi * ((s : ℝ) - (w : ℝ)) / ((M : ℝ) - (w : ℝ))) := by
    have := Real.neg_one_le_cos (Real.pi * ((s : ℝ) - (w : ℝ)) / ((M : ℝ) - (w : ℝ)))
    linarith
  nlinarith

/-- The cosine-decay branch is non-increasing on steps in `[w, M]`. -/
theorem cosine_decay_antitone (w M : ℕ) (mx mn : ℝ) (hwM : w < M) (hmn : mn ≤ mx)
    (s t : ℕ) (hws : w ≤ s) (hst : s ≤ t) (htM : t ≤ M) :
    CosineWarmup.decay w M mx mn t ≤ CosineWarmup.decay w M mx mn s := by
  have hMw : (0 : ℝ) < (M : ℝ) - (w : ℝ) :=
    sub_pos.mpr (Nat.cast_lt.mpr hwM)
  set d : ℝ := (M : ℝ) - (w : ℝ) with hd
  have hθs0 : 0 ≤ Real.pi * ((s : ℝ) - (w : ℝ)) / d :=
    div_nonneg
      (mul_nonneg Real.pi_nonneg (sub_nonneg.mpr (Nat.cast_le.mpr hws)))
      hMw.le
  have hratio : ((t : ℝ) - (w : ℝ)) / d ≤ 1 := by
    rw [div_le_one hMw]
    exact sub_le_sub_right (Nat.cast_le.mpr htM) _
  have hθtπ : Real.pi * ((t : ℝ) - (w : ℝ)) / d ≤ Real.pi := by
    rw [mul_div_assoc]
    calc Real.pi * (((t : ℝ) - (w : ℝ)) / d) ≤ Real.pi * 1 :=
          mul_le_mul_of_nonneg_left hratio Real.pi_nonneg
      _ = Real.pi := mul_one _
  have hθst : Real.pi * ((s : ℝ) - (w : ℝ)) / d ≤ Real.pi * ((t : ℝ) - (w : ℝ)) / d := by
    apply (div_le_div_iff_of_pos_right hMw).mpr
    exact mul_le_mul_of_nonneg_left (sub_le_sub_right (Nat.cast_le.mpr hst) _) Real.pi_nonneg
  have hcos : Real.cos (Real.pi * ((t : ℝ) - (w : ℝ)) / d) ≤
      Real.cos (Real.pi * ((s : ℝ) - (w : ℝ)) / d) :=
    Real.cos_le_cos_of_nonneg_of_le_pi hθs0 hθtπ hθst
  unfold CosineWarmup.decay
  rw [← hd]
  have hc : (0 : ℝ) ≤ 0.5 * (mx - mn) :=
    mul_nonneg (by norm_num) (sub_nonneg.mpr hmn)
  have := mul_le_mul_of_nonneg_left (add_le_add_left hcos 1) hc
  linarith

/-- C7: for every valid configuration (warmup < max_steps, and
min_lr ≤ max_lr), the warmup and decay branch formulas agree at
step = warmup (whenever the warmup branch is nonempty, i.e. warmup > 0),
and the schedule is monotonically non-increasing for all steps ≥ warmup. -/
theorem cosine_warmup_boundary_and_monotone (w M : ℕ) (mx mn : ℝ)
    (hwM : w < M) (hmn : mn ≤ mx) :
    (0 < w → CosineWarmup.ramp w mx w = CosineWarmup.decay w M mx mn w) ∧
    (∀ s t : ℕ, w ≤ s → s ≤ t →
      CosineWarmup.lr w M mx mn t ≤ CosineWarmup.lr w M mx mn s) := by
  constructor
  · intro hw
    have hw' : (w : ℝ) ≠ 0 := Nat.cast_ne_zero.mpr hw.ne'
    have h0 : Real.pi * ((w : ℝ) - (w : ℝ)) / ((M : ℝ) - (w : ℝ)) = 0 := by
      rw [sub_self, mul_zero, zero_div]
    rw [CosineWarmup.ramp, CosineWarmup.decay, h0, Real.cos_zero,
      mul_div_assoc, div_self hw', mul_one]
    ring
  · intro s t hws hst
    have hws' : ¬ s < w := not_lt.mpr hws
    have hwt' : ¬ t < w := not_lt.mpr (hws.trans hst)
    unfold CosineWarmup.lr
    rw [if_neg hws', if_neg hwt']
    by_cases hsM : s < M
    · rw [if_pos hsM]
      by_cases htM : t < M
      · rw [if_pos htM]
        exact cosine_decay_antitone w M mx mn hwM hmn s t hws hst htM.le
      · rw [if_neg htM]
        exact cosine_decay_ge_min w M mx mn hmn s
    · have htM : ¬ t < M := fun h => hsM (Nat.lt_of_le_of_lt hst h)
      rw [if_neg hsM, if_neg htM]

/-- Witness for C7 at the example configuration, instantiating the
monotonicity part at steps 200 and 300. -/
theorem cosine_warmup_boundary_and_monotone_witness :
    CosineWarmup.lr 100 1000 (1e-3) (1e-5) 300 ≤ CosineWarmup.lr 100 1000 (1e-3) (1e-5) 200 :=
  (cosine_warmup_boundary_and_monotone 100 1000 (1e-3) (1e-5) (by norm_num)
    (by norm_num)).2 200 300 (by norm_num) (by norm_num)

/-- Errors observable during the startup phase of `main`
(`src/train_thesis_model.py`): Python `KeyError` from a missing
configuration key, Python `ZeroDivisionError` from the `total_steps`
division, and the spec's `ConfigError` from the scheduler constructor. -/
inductive StartupError where
  | keyError (key : String)
  | zeroDivisionError
  | configError
deriving DecidableEq

/-- Python dictionary access `cfg[key]`: a missing key raises `KeyError`. -/
def requireKey {α : Type} (key : String) : Option α → Except StartupError α
  | some v => .ok v
  | none => .error (.keyError key)

/-- The configuration surface read by `main`: required keys are `none` when
absent. `seed` and `min_lr` are read with `cfg.get` and never fail. -/
structure Config where
  seed : Option ℤ
  train_csv : Option String
  dev_csv : Option String
  segment_sec : Option ℚ
  batch_size : Option ℕ
  num_workers : Option ℕ
  rwkv_depth : Option ℕ
  lr : Option ℚ
  epochs : Option ℤ
  grad_accum : Option ℤ
  warmup : Option ℤ
  min_lr : Option ℚ
  amp : Option Bool

/-- Startup phase of `main` (`src/train_thesis_model.py` before the
training loop), reading configuration keys in program order; `nBatches` is
`len(train_loader)`. `total_steps = cfg["epochs"] * len(train_loader) //
cfg["grad_accum"]` uses Python floor division (`Int.fdiv`) and raises
`ZeroDivisionError` when `grad_accum` is zero. The scheduler constructor
check is modelled from the spec: `CosineWarmup` (from the missing
`utils/lr_sched.py`) raises `ConfigError` unless
`0 ≤ warmup < max_steps`. Returns `total_steps` on success. -/
def startup (cfg : Config) (nBatches : ℕ) : Except StartupError ℤ := do
  let _ ← requireKey "train_csv" cfg.train_csv
  let _ ← requireKey "segment_sec" cfg.segment_sec
  let _ ← requireKey "dev_csv" cfg.dev_csv
  let _ ← requireKey "batch_size" cfg.batch_size
  let _ ← requireKey "num_workers" cfg.num_workers
  let _ ← requireKey "rwkv_depth" cfg.rwkv_depth
  let _ ← requireKey "lr" cfg.lr
  let epochs ← requireKey "epochs" cfg.epochs
  let ga ← requireKey "grad_accum" cfg.grad_accum
  if ga = 0 then throw .zeroDivisionError
  let totalSteps := Int.fdiv (epochs * nBatches) ga
  let warmup ← requireKey "warmup" cfg.warmup
  if ¬ (0 ≤ warmup ∧ warmup < totalSteps) then throw .configError
  let _ ← requireKey "amp" cfg.amp
  return totalSteps

/-- A configuration with every required key present, parametrized by the
values that drive startup validation. -/
def fullCfg (epochs ga warmup : ℤ) : Config :=
  { seed := some 42, train_csv := some "train.csv", dev_csv := some "dev.csv"
    segment_sec := some 4, batch_size := some 1, num_workers := some 0
    rwkv_depth := some 4, lr := some (1 / 1000), epochs := some epochs
    grad_accum := some ga, warmup := some warmup, min_lr := none
    amp := some false }

/-- Binding an `ok` value in `Except` continues with that value. -/
theorem except_ok_bind {α β : Type} (a : α) (f : α → Except StartupError β) :
    (Except.ok a : Except StartupError α) >>= f = f a := rfl

/-- Binding a pure value in `Except` continues with that value. -/
theorem except_pure_bind {α β : Type} (a : α) (f : α → Except StartupError β) :
    (pure a : Except StartupError α) >>= f = f a := rfl

/-- A missing `train_csv` key fails with `KeyError` at the first access. -/
theorem startup_missing_train_csv (cfg : Config) (n : ℕ)
    (h : cfg.train_csv = none) :
    startup cfg n = .error (.keyError "train_csv") := by
  unfold startup
  rw [h]
  rfl

/-- Zero `grad_accum` fails with `ZeroDivisionError` at the `total_steps`
division. -/
theorem startup_zero_grad_accum (e w : ℤ) (n : ℕ) :
    startup (fullCfg e 0 w) n = .error .zeroDivisionError := rfl

/-- Nonzero `grad_accum` with invalid scheduler bounds fails with
`ConfigError` from the modelled scheduler constructor. -/
theorem startup_bad_bounds (e ga w : ℤ) (n : ℕ) (hga : ga ≠ 0)
    (hbad : ¬ (0 ≤ w ∧ w < Int.fdiv (e * (n : ℤ)) ga)) :
    startup (fullCfg e ga w) n = .error .configError := by
  unfold startup fullCfg
  simp only [requireKey, except_ok_bind]
  rw [if_neg hga]
  simp only [except_pure_bind, except_ok_bind]
  rw [if_pos hbad]
  rfl

/-- C8 counterexample: with every required key present and grad_accum = 0,
startup fails with ZeroDivisionError (from the total_steps division), not
with the ConfigError stated by the claim. -/
theorem config_error_counterexample :
    startup (fullCfg 10 0 100) 50 = .error .zeroDivisionError ∧
    startup (fullCfg 10 0 100) 50 ≠ .error .configError := by
  have h : startup (fullCfg 10 0 100) 50 = .error .zeroDivisionError := rfl
  refine ⟨h, ?_⟩
  rw [h]
  intro hc
  injection hc with hc'
  exact StartupError.noConfusion hc'

/-- C8 amended: the program does fail at startup, before any training batch
is processed, but with the Python error matching the fault: a missing
required key raises KeyError at its first access, zero grad_accum raises
ZeroDivisionError at the total_steps division, and invalid scheduler
bounds — including the nonpositive total_steps induced by a negative
grad_accum — raise the modelled scheduler's ConfigError. -/
theorem startup_failfast (e w : ℤ) (ga : ℤ) (n : ℕ) :
    (∀ cfg : Config, cfg.train_csv = none →
      startup cfg n = .error (.keyError "train_csv")) ∧
    (ga = 0 → startup (fullCfg e ga w) n = .error .zeroDivisionError) ∧
    (ga ≠ 0 → ¬ (0 ≤ w ∧ w < Int.fdiv (e * (n : ℤ)) ga) →
      startup (fullCfg e ga w) n = .error .configError) ∧
    (ga < 0 → 0 ≤ e → 0 ≤ w → startup (fullCfg e ga w) n = .error .configError) := by
  refine ⟨fun cfg h => startup_missing_train_csv cfg n h, ?_, ?_, ?_⟩
  · rintro rfl
    exact startup_zero_grad_accum e w n
  · exact fun hga hbad => startup_bad_bounds e ga w n hga hbad
  · intro hga he hw
    apply startup_bad_bounds e ga w n hga.ne
    have hnum : 0 ≤ e * (n : ℤ) := mul_nonneg he (Int.natCast_nonneg n)
    have hdiv : Int.fdiv (e * (n : ℤ)) ga ≤ 0 := Int.fdiv_nonpos hnum hga.le
    rintro ⟨hw0, hlt⟩
    omega

/-- Witness for C8 amended at a concrete configuration with negative
grad_accum. -/
theorem startup_failfast_witness :
    startup (fullCfg 10 (-2) 100) 50 = .error .configError :=
  (startup_failfast 10 100 (-2) 50).2.2.2 (by norm_num) (by norm_num) (by norm_num)

/-- A single model parameter as the training loop sees it: its value, its
autograd flag, and its gradient buffer (none until a backward pass first
writes it). -/
structure Param where
  value : ℚ
  requiresGrad : Bool
  grad : Option ℚ
deriving DecidableEq

/-- Effect of `codec.eval().requires_grad_(False)` at separator
construction (`src/separator_rwkv6.py`): autograd is disabled for the
codec parameter, which at construction time has no gradient buffer. -/
def freezeParam (p : Param) : Param :=
  { p with requiresGrad := false, grad := none }

/-- Parameter-touching operations of the training loop in `main`:
`backward` accumulates a gradient contribution (autograd writes only
parameters with `requires_grad`), `clipGrad` rescales existing gradients
(`clip_grad_norm_`), `optStep` applies the AdamW update — PyTorch
optimizers skip parameters whose `grad` is `None` — and `zeroGrad` clears
gradient buffers (`opt.zero_grad()`). Forward passes read parameters
without writing them and need no constructor here. -/
inductive TrainOp where
  | backward (g : ℚ)
  | clipGrad (c : ℚ)
  | optStep (lrv wd : ℚ)
  | zeroGrad

/-- Semantics of one training operation on one parameter. -/
def applyOp (p : Param) : TrainOp → Param
  | .backward g =>
      if p.requiresGrad then { p with grad := some (p.grad.getD 0 + g) } else p
  | .clipGrad c =>
      match p.grad with
      | none => p
      | some g => { p with grad := some (c * g) }
  | .optStep lrv wd =>
      match p.grad with
      | none => p
      | some g => { p with value := p.value - lrv * (g + wd * p.value) }
  | .zeroGrad => { p with grad := none }

/-- A whole run of training operations on one parameter. -/
def applyOps (p : Param) (ops : List TrainOp) : Param :=
  ops.foldl applyOp p

/-- A parameter with autograd disabled and no gradient buffer is a fixed
point of every training operation. -/
theorem applyOp_frozen (p : Param) (op : TrainOp)
    (hrg : p.requiresGrad = false) (hg : p.grad = none) :
    applyOp p op = p := by
  cases p
  simp only at hrg hg
  subst hrg hg
  cases op <;> simp [applyOp]

/-- C9: the codec's parameters are frozen at separator construction; no
sequence of training operations (forward, backward, gradient clipping,
optimizer steps, gradient zeroing) ever changes a frozen codec
parameter. -/
theorem codec_params_unchanged (ops : List TrainOp) (p : Param) :
    applyOps (freezeParam p) ops = freezeParam p := by
  induction ops with
  | nil => rfl
  | cons op rest ih =>
    have h : applyOp (freezeParam p) op = freezeParam p :=
      applyOp_frozen (freezeParam p) op rfl rfl
    calc applyOps (freezeParam p) (op :: rest)
        = applyOps (applyOp (freezeParam p) op) rest := rfl
      _ = applyOps (freezeParam p) rest := by rw [h]
      _ = freezeParam p := ih

/-- The `RWKV6Separator` as built by its constructor
(`src/separator_rwkv6.py`): codec encoder, down-projection, RWKV trunk,
up-projection, and `n_spk` output heads built by `for _ in range(n_spk)` —
`headMk i` is the i-th head module (a fresh Conv1d+Snake stack). Tensors
are opaque (`T`). -/
structure RWKV6Separator (T : Type) where
  encode : T → T
  down : T → T
  rwkv : T → Option T → T × Option T
  up : T → T
  n_spk : ℕ
  headMk : ℕ → T → T

/-- The head module list `self.head`. -/
def RWKV6Separator.head {T : Type} (m : RWKV6Separator T) : List (T → T) :=
  (List.range m.n_spk).map m.headMk

/-- `forward` from `src/separator_rwkv6.py`: encode the mixture, apply the
down-projection, the RWKV trunk, the up-projection, then every head to the
shared trunk output, returning the list of per-head latents and the new
state. -/
def RWKV6Separator.forward {T : Type} (m : RWKV6Separator T) (mix : T)
    (state : Option T) : List T × Option T :=
  let z := m.encode mix
  let y := m.down z
  let ys := m.rwkv y state
  let y3 := m.up ys.1
  (m.head.map (fun h => h y3), ys.2)

/-- The shared trunk output of the separator. -/
def RWKV6Separator.trunk {T : Type} (m : RWKV6Separator T) (mix : T)
    (state : Option T) : T :=
  m.up (m.rwkv (m.down (m.encode mix)) state).1

/-- C10: a forward pass returns exactly `n_spk` predicted latents, the i-th
being the i-th head applied to the shared trunk output. -/
theorem forward_one_latent_per_head {T : Type} (m : RWKV6Separator T)
    (mix : T) (state : Option T) :
    (m.forward mix state).1.length = m.n_spk ∧
    (m.forward mix state).1 =
      (List.range m.n_spk).map (fun i => m.headMk i (m.trunk mix state)) := by
  constructor
  · simp [RWKV6Separator.forward, RWKV6Separator.head]
  · simp [RWKV6Separator.forward, RWKV6Separator.head, RWKV6Separator.trunk,
      List.map_map, Function.comp]
